import Mathlib

/-!
Verification of the EffectorFisher association-and-ranking core.

The orchestration layer (`effectorfisher_core.py`) is embedded directly from
the source. The statistical components it drives (`utils.fisherExactTest`,
`utils.finalizer`, …) are not part of the visible source tree, so each of
them is modelled from the specification, as marked on the individual
definitions.
-/

namespace EffectorFisher

/-! ### ExactTestEngine -/

/-- Modelled from the spec: `utils.fisherExactTest` is not in the visible
source. `tableCount r1 r2 c1 x` is the number of ways to realise the
margin-preserving 2×2 table whose top-left cell is `x`, with row sums
`r1, r2` and first column sum `c1`; dividing by `(r1+r2).choose c1` gives
the hypergeometric probability of that table. -/
def tableCount (r1 r2 c1 x : ℕ) : ℕ :=
  Nat.choose r1 x * Nat.choose r2 (c1 - x)

/-- Modelled from the spec: the two-tailed exact hypergeometric/Fisher
p-value of the 2×2 table `[[a, b], [c, d]]` — the probability, under the
null of independence, of a table at least as extreme as the one given
(i.e. of hypergeometric probability no larger than the observed one),
summed over the margin-preserving table space. All terms share the
denominator `(a+b+c+d).choose (a+c)`, so the comparison of probabilities
is the comparison of the integer table counts. -/
def exactTestPValue (a b c d : ℕ) : ℚ :=
  ((∑ x ∈ (Finset.range (a + c + 1)).filter
      (fun x => tableCount (a + b) (c + d) (a + c) x ≤ tableCount (a + b) (c + d) (a + c) a),
      tableCount (a + b) (c + d) (a + c) x : ℕ) : ℚ) /
    ((Nat.choose (a + b + c + d) (a + c) : ℕ) : ℚ)

/-! ### CrossTraitReducer -/

/-- Modelled from the spec: one row per (locus, trait) — locus key, trait
name and the exact-test p-value (`FisherExactTest.merge_and_compute_lowest_p_value`
is not in the visible source). -/
structure AssociationRecord where
  locusKey : String
  traitName : String
  pValue : ℚ
deriving DecidableEq

/-- Modelled from the spec: one reduction step — keep the record seen so
far unless the new record is strictly better, so the first trait in input
order wins ties. -/
def reduceStep (best rec : AssociationRecord) : AssociationRecord :=
  if rec.pValue < best.pValue then rec else best

/-- Modelled from the spec: CrossTraitReducer over the AssociationRecords
of one locus, given in trait input order with at least one record
(a locus with zero records is excluded upstream, not given a placeholder). -/
def crossTraitReduce (r0 : AssociationRecord) (rs : List AssociationRecord) : AssociationRecord :=
  rs.foldl reduceStep r0

/-! ### RankFilter -/

/-- Modelled from the spec: a row of the final joined table — locus key,
cysteine count, residue length, effector prediction score and reduced
p-value (`utils.finalizer` is not in the visible source). -/
structure RankedCandidate where
  locusKey : String
  cysteineCount : ℚ
  residueLength : ℕ
  predictionScore : ℚ
  pValue : ℚ
deriving DecidableEq

/-- The four threshold values handed to `Finalizer.rank_known_effectors`
by `main` (source lines 94-99): `args.cyst`, `args.total_aa`,
`args.pred_score`, `args.p_value`. -/
structure Thresholds where
  cystMin : ℚ
  maxResidue : ℕ
  minScore : ℚ
  maxP : ℚ

/-- Modelled from the spec: the four conjunctive threshold predicates of
RankFilter — cysteine count ≥ minimum, residue length ≤ maximum,
prediction score ≥ minimum, p-value ≤ maximum. -/
def passesThresholds (t : Thresholds) (r : RankedCandidate) : Bool :=
  decide (t.cystMin ≤ r.cysteineCount) && decide (r.residueLength ≤ t.maxResidue) &&
    decide (t.minScore ≤ r.predictionScore) && decide (r.pValue ≤ t.maxP)

/-- Modelled from the spec: the output order of RankFilter — ascending by
p-value with the locus key as deterministic secondary key. -/
def rankOrder (x y : RankedCandidate) : Prop :=
  x.pValue < y.pValue ∨ (x.pValue = y.pValue ∧ x.locusKey ≤ y.locusKey)

instance : DecidableRel rankOrder := fun x y => by
  unfold rankOrder
  infer_instance

/-- Modelled from the spec: RankFilter keeps exactly the rows passing all
four threshold predicates (failing rows are removed, not flagged) and
sorts the survivors by `rankOrder`. -/
def rankFilter (t : Thresholds) (rows : List RankedCandidate) : List RankedCandidate :=
  List.insertionSort rankOrder (rows.filter (passesThresholds t))

/-- The second configuration is at least as strict as the first in every
threshold: a higher cysteine minimum, a lower residue-length maximum, a
higher prediction-score minimum, and a lower p-value maximum. -/
def stricterThan (t2 t1 : Thresholds) : Prop :=
  t1.cystMin ≤ t2.cystMin ∧ t2.maxResidue ≤ t1.maxResidue ∧
    t1.minScore ≤ t2.minScore ∧ t2.maxP ≤ t1.maxP

/-- Modelled from the spec: `Finalizer.rank_known_effectors` returns an
explicit empty-result signal (`none`) when zero rows survive the four
thresholds, rather than raising; otherwise the ranked survivors. -/
def rank_known_effectors (t : Thresholds) (rows : List RankedCandidate) :
    Option (List RankedCandidate) :=
  if (rankFilter t rows).isEmpty then none else some (rankFilter t rows)

/-- The three distinguishable outcomes of the finalization stage of `main`
(source lines 92-108): a ranked table is printed, the no-candidates
message is printed, or a caught exception prints a finalization error. -/
inductive FinalizeOutcome where
  | ranked : List RankedCandidate → FinalizeOutcome
  | noCandidates : FinalizeOutcome
  | stageError : String → FinalizeOutcome
deriving DecidableEq

/-- From `main` lines 101-105: the caller branches on whether
`rank_known_effectors` returned a result or the empty-result signal,
reporting the latter as a message rather than an error. -/
def finalizeStage (t : Thresholds) (rows : List RankedCandidate) : FinalizeOutcome :=
  match rank_known_effectors t rows with
  | some ranked => FinalizeOutcome.ranked ranked
  | none => FinalizeOutcome.noCandidates

/-! ### ContingencyBuilder -/

/-- Modelled from the spec: look a sample id up in a vector of per-sample
values (first binding wins). -/
def lookupSample (s : String) : List (String × Bool) → Option Bool
  | [] => none
  | q :: rest => if q.1 = s then some q.2 else lookupSample s rest

/-- Modelled from the spec: the samples of the presence vector that also
appear in the trait vector — only samples present in both contribute. -/
def sharedSamples (presence trait : List (String × Bool)) : List (String × Bool) :=
  presence.filter (fun p => (lookupSample p.1 trait).isSome)

/-- Modelled from the spec: the count of shared samples with presence
value `pv` and trait value `tv`. -/
def cellCount (presence trait : List (String × Bool)) (pv tv : Bool) : ℕ :=
  ((sharedSamples presence trait).filter
    (fun p => p.2 == pv && lookupSample p.1 trait == some tv)).length

/-- Modelled from the spec: ContingencyBuilder — given a locus presence
vector and a trait value vector aligned by sample id, fail with a
`DataAlignmentError` when the sample-id intersection is empty, and
otherwise tally the 2×2 contingency counts over the shared samples. -/
def buildContingency (presence trait : List (String × Bool)) :
    Except String (ℕ × ℕ × ℕ × ℕ) :=
  if (sharedSamples presence trait).isEmpty then Except.error ("DataAlignmentError")
  else Except.ok (cellCount presence trait true true, cellCount presence trait true false,
    cellCount presence trait false true, cellCount presence trait false false)

/-! ### LocusIdentifier -/

/-- A locus row as seen by `FisherExactTest.add_locus_id_column`: the
locus key plus its reduced p-value. -/
structure LocusRow where
  key : String
  pValue : ℚ
deriving DecidableEq

/-- Modelled from the spec: the identifier derived from the locus key
alone — the derivation function itself is unspecified, modelled as a
fixed prefixing of the key. -/
def locusIdOfKey (key : String) : String :=
  String.append ("locus_") key

/-- Modelled from the spec: `add_locus_id_column` attaches to every locus
row the identifier derived from its key, keeping the rows in order. -/
def addLocusIdColumn (rows : List LocusRow) : List (LocusRow × String) :=
  rows.map (fun r => (r, locusIdOfKey r.key))

/-! ### The orchestration layer (source: `effectorfisher_core.py`) -/

/-- The command-line arguments of `parse_arguments` that influence the
control flow and the threshold values (source lines 20-35). -/
structure Args where
  save : Bool
  cyst : ℚ
  total_aa : ℕ
  pred_score : ℚ
  p_value : ℚ

/-- The outcome of each fallible operation `main` performs, abstracting
the Python exceptions each `try` block catches: `true` means the
operation completes, `false` that it raises. -/
structure RunEnv where
  phenotypeOk : Bool
  variantOk : Bool
  finalizeOk : Bool
  savePhenotypeOk : Bool
  saveVariantOk : Bool
  saveHypergeoOk : Bool
  savePredectorOk : Bool
  saveIsoformOk : Bool
  saveLociOk : Bool

/-- The dynamic type of the value `main` returns, as inspected by the
`isinstance(result, pd.DataFrame)` check of the `__main__` block
(source lines 170-174). -/
inductive PyResult where
  | int : Int → PyResult
  | dataFrame : PyResult
deriving DecidableEq

/-- From `main` lines 139-167: the three final outputs are saved
unconditionally, each in its own `try` block returning 1 on failure;
on success `main` returns 0. `ws` is the list of files already written. -/
def finalSaves (env : RunEnv) (ws : List String) : PyResult × List String :=
  if env.savePredectorOk = false then (PyResult.int 1, ws)
  else if env.saveIsoformOk = false then
    (PyResult.int 1, ws ++ ["8_pred_fisher_merged_dataset.txt"])
  else if env.saveLociOk = false then
    (PyResult.int 1, ws ++ ["8_pred_fisher_merged_dataset.txt", "complete_isoform_list.txt"])
  else (PyResult.int 0, ws ++ ["8_pred_fisher_merged_dataset.txt", "complete_isoform_list.txt",
    "filtered_loci_list.txt"])

/-- From `main` (source lines 38-167): phenotype processing, variant
processing and finalization each return 1 on a caught error; the
intermediate phenotype, variant and hypergeometric tables are written
only under `args.save` (lines 110-137), each save returning 1 on a
caught error; then the final saves run unconditionally. The second
component records the files written. -/
def mainRun (args : Args) (env : RunEnv) : PyResult × List String :=
  if env.phenotypeOk = false then (PyResult.int 1, [])
  else if env.variantOk = false then (PyResult.int 1, [])
  else if env.finalizeOk = false then (PyResult.int 1, [])
  else if args.save then
    if env.savePhenotypeOk = false then (PyResult.int 1, [])
    else if env.saveVariantOk = false then (PyResult.int 1, ["phenotype_tables"])
    else if env.saveHypergeoOk = false then
      (PyResult.int 1, ["phenotype_tables", "0_filtered_combined_variants.txt"])
    else finalSaves env
      ["phenotype_tables", "0_filtered_combined_variants.txt", "hypergeo_tables"]
  else finalSaves env []

/-- From the `__main__` block (source lines 170-174): the branch printing
the final in-memory output fires exactly when `main` returned a
DataFrame. -/
def mainBlockPrintsDataFrame (args : Args) (env : RunEnv) : Bool :=
  match (mainRun args env).1 with
  | PyResult.dataFrame => true
  | PyResult.int _ => false

/-! ### Concrete sample data used by the witnesses -/

/-- The default thresholds of `parse_arguments`: cysteine minimum 4,
residue maximum 300, prediction-score minimum 0.7, p-value maximum 0.05. -/
def defaultThresholds : Thresholds :=
  Thresholds.mk 4 300 (7 / 10) (1 / 20)

/-- A configuration strictly tighter than the defaults in every
threshold. -/
def tightThresholds : Thresholds :=
  Thresholds.mk 5 200 (8 / 10) (1 / 100)

/-- A candidate passing all four default thresholds. -/
def passingCandidate : RankedCandidate :=
  RankedCandidate.mk ("L1") 5 120 (9 / 10) (1 / 100)

/-- A candidate failing the cysteine threshold (count 3 against
minimum 4). -/
def failingCandidate : RankedCandidate :=
  RankedCandidate.mk ("L2") 3 120 (9 / 10) (1 / 100)

/-- A run in which every fallible operation of `main` completes. -/
def allOkEnv : RunEnv :=
  RunEnv.mk true true true true true true true true true

/-- The default argument values of `parse_arguments`, with `--save`
supplied. -/
def defaultArgsWithSave : Args :=
  Args.mk true 4 300 (7 / 10) (1 / 20)

end EffectorFisher

namespace EffectorFisher

/-- Vandermonde's identity, phrased over the top-left cell of the
margin-preserving table space: the table counts over all admissible cells
sum to the total number of ways to choose the first column. -/
lemma sum_tableCount (r1 r2 c1 : ℕ) :
    ∑ x ∈ Finset.range (c1 + 1), tableCount r1 r2 c1 x = Nat.choose (r1 + r2) c1 := by
  rw [Nat.add_choose_eq, Finset.Nat.sum_antidiagonal_eq_sum_range_succ_mk]
  rfl

/-- When the observed cell attains the maximal table count, the filtered
two-tailed sum covers the whole table space and the p-value is 1. -/
lemma exactTestPValue_eq_one_of_max (a b c d : ℕ)
    (h : ∀ x ∈ Finset.range (a + c + 1),
      tableCount (a + b) (c + d) (a + c) x ≤ tableCount (a + b) (c + d) (a + c) a) :
    exactTestPValue a b c d = 1 := by
  unfold exactTestPValue
  rw [Finset.filter_true_of_mem h]
  have hsum : ∑ x ∈ Finset.range (a + c + 1), tableCount (a + b) (c + d) (a + c) x
      = Nat.choose (a + b + (c + d)) (a + c) := sum_tableCount (a + b) (c + d) (a + c)
  have harr : a + b + (c + d) = a + b + c + d := by omega
  rw [harr] at hsum
  rw [hsum]
  have hpos : 0 < Nat.choose (a + b + c + d) (a + c) := Nat.choose_pos (by omega)
  rw [div_self]
  exact_mod_cast hpos.ne.symm

/-- C1: for every 2×2 contingency table with a zero row sum or a zero
column sum, the ExactTestEngine returns a p-value exactly equal to 1
(and, being a total function into ℚ, does not fail). -/
theorem exactTestEngine_degenerate (a b c d : ℕ)
    (h : a + b = 0 ∨ c + d = 0 ∨ a + c = 0 ∨ b + d = 0) :
    exactTestPValue a b c d = 1 := by
  apply exactTestPValue_eq_one_of_max
  intro x hx
  rw [Finset.mem_range] at hx
  rcases h with h | h | h | h
  · -- first row sum is zero: a = b = 0, every other table count vanishes
    have ha : a = 0 := by omega
    have hb : b = 0 := by omega
    subst ha; subst hb
    rcases Nat.eq_zero_or_pos x with hx0 | hx0
    · subst hx0; exact le_refl _
    · have : Nat.choose (0 + 0) x = 0 := Nat.choose_eq_zero_of_lt (by omega)
      unfold tableCount
      rw [this, Nat.zero_mul]
      exact Nat.zero_le _
  · -- second row sum is zero: c = d = 0, only x = a has a nonzero count
    have hc : c = 0 := by omega
    have hd : d = 0 := by omega
    subst hc; subst hd
    rcases Nat.lt_or_ge x a with hlt | hge
    · have : Nat.choose (0 + 0) (a + 0 - x) = 0 := Nat.choose_eq_zero_of_lt (by omega)
      unfold tableCount
      rw [this, Nat.mul_zero]
      exact Nat.zero_le _
    · have hxa : x = a := by omega
      subst hxa; exact le_refl _
  · -- first column sum is zero: the range collapses to the observed cell
    have hxa : x = a := by omega
    subst hxa; exact le_refl _
  · -- second column sum is zero: b = d = 0, only x = a has a nonzero count
    have hb : b = 0 := by omega
    have hd : d = 0 := by omega
    subst hb; subst hd
    rcases Nat.lt_trichotomy x a with hlt | heq | hgt
    · have : Nat.choose (c + 0) (a + c - x) = 0 := Nat.choose_eq_zero_of_lt (by omega)
      unfold tableCount
      rw [this, Nat.mul_zero]
      exact Nat.zero_le _
    · subst heq; exact le_refl _
    · have : Nat.choose (a + 0) x = 0 := Nat.choose_eq_zero_of_lt (by omega)
      unfold tableCount
      rw [this, Nat.zero_mul]
      exact Nat.zero_le _

/-- C1 witness: the degenerate table `[[3, 0], [2, 0]]` (second column sum
zero) gets p-value 1. -/
theorem exactTestEngine_degenerate_witness :
    (3 + 0 = 0 ∨ 2 + 0 = 0 ∨ 3 + 2 = 0 ∨ 0 + 0 = 0) ∧ exactTestPValue 3 0 2 0 = 1 :=
  ⟨by decide, exactTestEngine_degenerate 3 0 2 0 (by decide)⟩

/-- The two-tailed exact p-value of the table `[[8, 2], [1, 9]]` is
`920 / 167960 = 23 / 4199 ≈ 0.005477`: the margin-preserving tables at
most as probable as the observed one have top-left cell 0, 1, 8 or 9,
with table counts 10, 450, 450 and 10 over the total 167960. -/
lemma exactTestPValue_example_table : exactTestPValue 8 2 1 9 = 23 / 4199 := by
  have hS : (∑ x ∈ (Finset.range (8 + 1 + 1)).filter
      (fun x => tableCount (8 + 2) (1 + 9) (8 + 1) x ≤ tableCount (8 + 2) (1 + 9) (8 + 1) 8),
      tableCount (8 + 2) (1 + 9) (8 + 1) x) = 920 := by decide
  have hC : Nat.choose (8 + 2 + 1 + 9) (8 + 1) = 167960 := by decide
  unfold exactTestPValue
  rw [hS, hC]
  norm_num

/-- C4 counterexample: the two-tailed exact p-value of `[[8, 2], [1, 9]]`
is `23 / 4199 ≈ 0.005477`, which is not approximately 0.0011 — it is not
even below 0.002, nearly twice the claimed value. -/
theorem exactTest_example_not_0011 :
    exactTestPValue 8 2 1 9 = 23 / 4199 ∧ ¬ exactTestPValue 8 2 1 9 ≤ 1 / 500 := by
  refine ⟨exactTestPValue_example_table, ?_⟩
  rw [exactTestPValue_example_table]
  norm_num

/-- C4 (amended): for the 2×2 contingency table `[[8, 2], [1, 9]]`, the
two-tailed exact hypergeometric/Fisher p-value is `23 / 4199 ≈ 0.0055`
(not ≈ 0.0011), which is below the 0.05 threshold, so the locus passes
the p-value filter. -/
theorem exactTest_example_passes :
    exactTestPValue 8 2 1 9 = 23 / 4199 ∧ exactTestPValue 8 2 1 9 ≤ 1 / 20 := by
  refine ⟨exactTestPValue_example_table, ?_⟩
  rw [exactTestPValue_example_table]
  norm_num

/-- A reduction step never increases the running p-value past the record
kept so far. -/
lemma reduceStep_le_left (best rec : AssociationRecord) :
    (reduceStep best rec).pValue ≤ best.pValue := by
  unfold reduceStep
  split
  · exact le_of_lt (by assumption)
  · exact le_refl _

/-- A reduction step never keeps a p-value above the incoming record. -/
lemma reduceStep_le_right (best rec : AssociationRecord) :
    (reduceStep best rec).pValue ≤ rec.pValue := by
  unfold reduceStep
  split
  · exact le_refl _
  · exact le_of_not_lt (by assumption)

/-- The reducer returns one of the input records. -/
lemma crossTraitReduce_mem (r0 : AssociationRecord) (rs : List AssociationRecord) :
    crossTraitReduce r0 rs ∈ r0 :: rs := by
  induction rs generalizing r0 with
  | nil => simp [crossTraitReduce]
  | cons rec0 rest ih =>
    have hstep : crossTraitReduce r0 (rec0 :: rest) = crossTraitReduce (reduceStep r0 rec0) rest :=
      rfl
    rw [hstep]
    rcases List.mem_cons.mp (ih (reduceStep r0 rec0)) with heq | hmem
    · rw [heq]
      unfold reduceStep
      split
      · exact List.mem_cons_of_mem _ (List.mem_cons_self _ _)
      · exact List.mem_cons_self _ _
    · exact List.mem_cons_of_mem _ (List.mem_cons_of_mem _ hmem)

/-- The reducer's p-value is a lower bound on every input p-value. -/
lemma crossTraitReduce_le (r0 : AssociationRecord) (rs : List AssociationRecord) :
    ∀ rec ∈ r0 :: rs, (crossTraitReduce r0 rs).pValue ≤ rec.pValue := by
  induction rs generalizing r0 with
  | nil =>
    intro rec hrec
    rcases List.mem_cons.mp hrec with h | h
    · rw [h]
      exact le_refl _
    · exact absurd h (List.not_mem_nil rec)
  | cons rec0 rest ih =>
    intro rec hrec
    have hstep : crossTraitReduce r0 (rec0 :: rest) = crossTraitReduce (reduceStep r0 rec0) rest :=
      rfl
    rw [hstep]
    have hhead : (crossTraitReduce (reduceStep r0 rec0) rest).pValue
        ≤ (reduceStep r0 rec0).pValue :=
      ih (reduceStep r0 rec0) (reduceStep r0 rec0) (List.mem_cons_self _ _)
    rcases List.mem_cons.mp hrec with h | h
    · rw [h]
      exact le_trans hhead (reduceStep_le_left r0 rec0)
    · rcases List.mem_cons.mp h with h2 | h2
      · rw [h2]
        exact le_trans hhead (reduceStep_le_right r0 rec0)
      · exact ih (reduceStep r0 rec0) rec (List.mem_cons_of_mem _ h2)

/-- The reducer's output is the first input record in input order whose
p-value reaches the reduced p-value: ties resolve to the first trait. -/
lemma crossTraitReduce_find (r0 : AssociationRecord) (rs : List AssociationRecord) :
    (r0 :: rs).find? (fun rec => decide (rec.pValue ≤ (crossTraitReduce r0 rs).pValue))
      = some (crossTraitReduce r0 rs) := by
  induction rs generalizing r0 with
  | nil =>
    have h0 : crossTraitReduce r0 [] = r0 := rfl
    rw [h0]
    exact List.find?_cons_of_pos _ (by simp)
  | cons rec0 rest ih =>
    have hstep : crossTraitReduce r0 (rec0 :: rest) = crossTraitReduce (reduceStep r0 rec0) rest :=
      rfl
    rw [hstep]
    by_cases hlt : rec0.pValue < r0.pValue
    · have hr : reduceStep r0 rec0 = rec0 := by simp [reduceStep, hlt]
      rw [hr]
      have hm_le : (crossTraitReduce rec0 rest).pValue ≤ rec0.pValue :=
        crossTraitReduce_le rec0 rest rec0 (List.mem_cons_self _ _)
      have hp_r0 : ¬(r0.pValue ≤ (crossTraitReduce rec0 rest).pValue) :=
        not_le.mpr (lt_of_le_of_lt hm_le hlt)
      rw [List.find?_cons_of_neg _ (by simpa using hp_r0)]
      exact ih rec0
    · have hr : reduceStep r0 rec0 = r0 := by simp [reduceStep, hlt]
      rw [hr]
      by_cases hp : r0.pValue ≤ (crossTraitReduce r0 rest).pValue
      · rw [List.find?_cons_of_pos _ (by simpa using hp)]
        have hrec := ih r0
        rw [List.find?_cons_of_pos _ (by simpa using hp)] at hrec
        exact hrec
      · have hm_lt : (crossTraitReduce r0 rest).pValue < r0.pValue := not_le.mp hp
        have hp_rec0 : ¬(rec0.pValue ≤ (crossTraitReduce r0 rest).pValue) :=
          not_le.mpr (lt_of_lt_of_le hm_lt (not_lt.mp hlt))
        rw [List.find?_cons_of_neg _ (by simpa using hp),
          List.find?_cons_of_neg _ (by simpa using hp_rec0)]
        have hrec := ih r0
        rw [List.find?_cons_of_neg _ (by simpa using hp)] at hrec
        exact hrec

/-- C2: for every locus with at least one AssociationRecord, the
CrossTraitReducer returns one of the locus's records, its stored p-value
is the minimum of all the records' p-values (a member that is a lower
bound), and the returned record is the first one in trait input order
attaining that minimum, so ties resolve to the first trait. -/
theorem crossTraitReducer_min_first_tie (r0 : AssociationRecord) (rs : List AssociationRecord) :
    crossTraitReduce r0 rs ∈ r0 :: rs ∧
    (∀ rec ∈ r0 :: rs, (crossTraitReduce r0 rs).pValue ≤ rec.pValue) ∧
    (r0 :: rs).find? (fun rec => decide (rec.pValue ≤ (crossTraitReduce r0 rs).pValue))
      = some (crossTraitReduce r0 rs) :=
  ⟨crossTraitReduce_mem r0 rs, crossTraitReduce_le r0 rs, crossTraitReduce_find r0 rs⟩

/-- C2 witness: at locus L1 the traits t1, t2, t3 have p-values 0.03,
0.01, 0.01; the reducer picks p-value 0.01 with provenance t2, the first
of the two tied traits in input order. -/
theorem crossTraitReducer_min_first_tie_witness :
    crossTraitReduce (AssociationRecord.mk ("L1") ("t1") (3 / 100))
        [AssociationRecord.mk ("L1") ("t2") (1 / 100),
          AssociationRecord.mk ("L1") ("t3") (1 / 100)]
      ∈ AssociationRecord.mk ("L1") ("t1") (3 / 100) ::
        [AssociationRecord.mk ("L1") ("t2") (1 / 100),
          AssociationRecord.mk ("L1") ("t3") (1 / 100)] ∧
    (∀ rec ∈ AssociationRecord.mk ("L1") ("t1") (3 / 100) ::
        [AssociationRecord.mk ("L1") ("t2") (1 / 100),
          AssociationRecord.mk ("L1") ("t3") (1 / 100)],
      (crossTraitReduce (AssociationRecord.mk ("L1") ("t1") (3 / 100))
        [AssociationRecord.mk ("L1") ("t2") (1 / 100),
          AssociationRecord.mk ("L1") ("t3") (1 / 100)]).pValue ≤ rec.pValue) ∧
    (AssociationRecord.mk ("L1") ("t1") (3 / 100) ::
        [AssociationRecord.mk ("L1") ("t2") (1 / 100),
          AssociationRecord.mk ("L1") ("t3") (1 / 100)]).find?
        (fun rec => decide (rec.pValue ≤
          (crossTraitReduce (AssociationRecord.mk ("L1") ("t1") (3 / 100))
            [AssociationRecord.mk ("L1") ("t2") (1 / 100),
              AssociationRecord.mk ("L1") ("t3") (1 / 100)]).pValue))
      = some (crossTraitReduce (AssociationRecord.mk ("L1") ("t1") (3 / 100))
          [AssociationRecord.mk ("L1") ("t2") (1 / 100),
            AssociationRecord.mk ("L1") ("t3") (1 / 100)]) :=
  crossTraitReducer_min_first_tie (AssociationRecord.mk ("L1") ("t1") (3 / 100))
    [AssociationRecord.mk ("L1") ("t2") (1 / 100),
      AssociationRecord.mk ("L1") ("t3") (1 / 100)]

/-- C3: a row appears in the RankFilter output exactly when it is an
input row satisfying all four threshold predicates simultaneously; a row
failing at least one predicate is absent from the output (removed, not
flagged). -/
theorem rankFilter_conjunctive (t : Thresholds) (rows : List RankedCandidate)
    (r : RankedCandidate) :
    r ∈ rankFilter t rows ↔
      r ∈ rows ∧ t.cystMin ≤ r.cysteineCount ∧ r.residueLength ≤ t.maxResidue ∧
        t.minScore ≤ r.predictionScore ∧ r.pValue ≤ t.maxP := by
  unfold rankFilter
  rw [List.mem_insertionSort, List.mem_filter]
  unfold passesThresholds
  simp only [Bool.and_eq_true, decide_eq_true_eq]
  tauto

/-- C3 witness: with the default thresholds, the passing candidate is in
the output of RankFilter over the two sample candidates, the failing one
is not. -/
theorem rankFilter_conjunctive_witness :
    (passingCandidate ∈ rankFilter defaultThresholds [passingCandidate, failingCandidate] ↔
      passingCandidate ∈ [passingCandidate, failingCandidate] ∧
        defaultThresholds.cystMin ≤ passingCandidate.cysteineCount ∧
        passingCandidate.residueLength ≤ defaultThresholds.maxResidue ∧
        defaultThresholds.minScore ≤ passingCandidate.predictionScore ∧
        passingCandidate.pValue ≤ defaultThresholds.maxP) ∧
    ¬ failingCandidate ∈ rankFilter defaultThresholds [passingCandidate, failingCandidate] := by
  refine ⟨rankFilter_conjunctive defaultThresholds [passingCandidate, failingCandidate]
    passingCandidate, ?_⟩
  intro hmem
  have h := (rankFilter_conjunctive defaultThresholds [passingCandidate, failingCandidate]
    failingCandidate).mp hmem
  have h3 : defaultThresholds.cystMin ≤ failingCandidate.cysteineCount := h.2.1
  revert h3
  decide

/-- C5: whenever the second threshold configuration is at least as strict
as the first in every threshold, every row surviving the stricter
configuration also survives the looser one, and the stricter result is
never larger. -/
theorem rankFilter_monotone (t1 t2 : Thresholds) (rows : List RankedCandidate)
    (h : stricterThan t2 t1) :
    (∀ r ∈ rankFilter t2 rows, r ∈ rankFilter t1 rows) ∧
      (rankFilter t2 rows).length ≤ (rankFilter t1 rows).length := by
  obtain ⟨h1, h2, h3, h4⟩ := h
  have himp : ∀ r : RankedCandidate, passesThresholds t2 r → passesThresholds t1 r := by
    intro r hr
    unfold passesThresholds at hr ⊢
    simp only [Bool.and_eq_true, decide_eq_true_eq] at hr ⊢
    exact ⟨⟨⟨le_trans h1 hr.1.1.1, le_trans hr.1.1.2 h2⟩, le_trans h3 hr.1.2⟩,
      le_trans hr.2 h4⟩
  constructor
  · intro r hr
    unfold rankFilter at hr ⊢
    rw [List.mem_insertionSort, List.mem_filter] at hr ⊢
    exact ⟨hr.1, himp r hr.2⟩
  · unfold rankFilter
    rw [List.length_insertionSort, List.length_insertionSort]
    exact (List.monotone_filter_right rows himp).length_le

/-- C5 witness: the tight configuration is stricter than the default one,
and over the two sample candidates its RankFilter output embeds into the
default output and is no longer. -/
theorem rankFilter_monotone_witness :
    stricterThan tightThresholds defaultThresholds ∧
    ((∀ r ∈ rankFilter tightThresholds [passingCandidate, failingCandidate],
        r ∈ rankFilter defaultThresholds [passingCandidate, failingCandidate]) ∧
      (rankFilter tightThresholds [passingCandidate, failingCandidate]).length ≤
        (rankFilter defaultThresholds [passingCandidate, failingCandidate]).length) :=
  ⟨by norm_num [stricterThan, tightThresholds, defaultThresholds],
    rankFilter_monotone defaultThresholds tightThresholds
      [passingCandidate, failingCandidate]
      (by norm_num [stricterThan, tightThresholds, defaultThresholds])⟩

/-- C6: when every input row fails at least one of the four threshold
predicates, `rank_known_effectors` returns the explicit empty-result
signal `none` rather than raising, and the caller's finalization stage
takes the no-candidates branch, an outcome distinct from every stage
error. -/
theorem rankFilter_empty_signal (t : Thresholds) (rows : List RankedCandidate)
    (h : ∀ r ∈ rows, passesThresholds t r = false) :
    rank_known_effectors t rows = none ∧
      finalizeStage t rows = FinalizeOutcome.noCandidates ∧
      ∀ msg, FinalizeOutcome.noCandidates ≠ FinalizeOutcome.stageError msg := by
  have hnil : rows.filter (passesThresholds t) = [] := by
    rw [List.filter_eq_nil_iff]
    intro a ha
    simp [h a ha]
  have hempty : rankFilter t rows = [] := by
    unfold rankFilter
    rw [hnil]
    rfl
  refine ⟨?_, ?_, ?_⟩
  · unfold rank_known_effectors
    rw [hempty]
    rfl
  · unfold finalizeStage rank_known_effectors
    rw [hempty]
    rfl
  · intro msg hcontra
    exact FinalizeOutcome.noConfusion hcontra

/-- C6 witness: with the default thresholds and the failing candidate as
only row, the reducer signals the empty result and the finalization stage
reports no candidates. -/
theorem rankFilter_empty_signal_witness :
    rank_known_effectors defaultThresholds [failingCandidate] = none ∧
      finalizeStage defaultThresholds [failingCandidate] = FinalizeOutcome.noCandidates ∧
      ∀ msg, FinalizeOutcome.noCandidates ≠ FinalizeOutcome.stageError msg :=
  rankFilter_empty_signal defaultThresholds [failingCandidate] (by decide)

/-- C7: when the locus presence vector and the trait value vector share
no sample ids, the ContingencyBuilder fails with a `DataAlignmentError`
and produces no table; when the intersection is non-empty it produces a
table, and a presence sample absent from the trait vector contributes
nothing to the counts. -/
theorem contingencyBuilder_alignment (presence trait : List (String × Bool)) :
    ((∀ p ∈ presence, lookupSample p.1 trait = none) →
      buildContingency presence trait = Except.error ("DataAlignmentError")) ∧
    ((∃ p ∈ presence, (lookupSample p.1 trait).isSome = true) →
      ∃ counts, buildContingency presence trait = Except.ok counts) ∧
    (∀ s v, lookupSample s trait = none →
      buildContingency ((s, v) :: presence) trait = buildContingency presence trait) := by
  refine ⟨?_, ?_, ?_⟩
  · intro h
    have hnil : sharedSamples presence trait = [] := by
      unfold sharedSamples
      rw [List.filter_eq_nil_iff]
      intro a ha
      simp [h a ha]
    unfold buildContingency
    rw [hnil]
    rfl
  · intro h
    obtain ⟨p, hp, hsome⟩ := h
    have hmem : p ∈ sharedSamples presence trait := List.mem_filter.mpr ⟨hp, hsome⟩
    have hne : ¬((sharedSamples presence trait).isEmpty = true) := by
      simp only [List.isEmpty_iff]
      exact List.ne_nil_of_mem hmem
    unfold buildContingency
    rw [if_neg hne]
    exact ⟨_, rfl⟩
  · intro s v h
    have hshared : sharedSamples ((s, v) :: presence) trait = sharedSamples presence trait := by
      unfold sharedSamples
      rw [List.filter_cons]
      simp [h]
    unfold buildContingency cellCount
    rw [hshared]

/-- C7 witness: a presence vector over sample s1 and a trait vector over
sample s2 share no sample id, so the builder fails with a
`DataAlignmentError`. -/
theorem contingencyBuilder_alignment_witness :
    (∀ p ∈ [(("s1"), true)], lookupSample p.1 [(("s2"), false)] = none) ∧
      buildContingency [(("s1"), true)] [(("s2"), false)] =
        Except.error ("DataAlignmentError") :=
  ⟨by decide, (contingencyBuilder_alignment [(("s1"), true)] [(("s2"), false)]).1 (by decide)⟩

/-- C8: the identifier attached to a locus row is a pure function of the
locus key alone — equal inputs give equal outputs, the rows keep their
order, and any two rows with the same key, in any position of any two
runs, receive the same identifier. -/
theorem locusIdentifier_pure (rows1 rows2 : List LocusRow) :
    (rows1 = rows2 → addLocusIdColumn rows1 = addLocusIdColumn rows2) ∧
    ((addLocusIdColumn rows1).map Prod.fst = rows1) ∧
    (∀ p ∈ addLocusIdColumn rows1, ∀ q ∈ addLocusIdColumn rows2,
      p.1.key = q.1.key → p.2 = q.2) := by
  refine ⟨fun h => by rw [h], ?_, ?_⟩
  · unfold addLocusIdColumn
    rw [List.map_map]
    have hid : (Prod.fst ∘ fun r : LocusRow => (r, locusIdOfKey r.key)) = id := rfl
    rw [hid, List.map_id]
  · intro p hp q hq
    unfold addLocusIdColumn at hp hq
    obtain ⟨r1, hr1, rfl⟩ := List.mem_map.mp hp
    obtain ⟨r2, hr2, rfl⟩ := List.mem_map.mp hq
    intro hkey
    exact congrArg locusIdOfKey hkey

/-- C8 witness: the rows with key L1, at different positions of two
different runs, receive the same identifier; the identifier column keeps
the row order. -/
theorem locusIdentifier_pure_witness :
    ((LocusRow.mk ("L1") (1 / 100) :: []) =
        [LocusRow.mk ("L9") (1 / 2), LocusRow.mk ("L1") (3 / 100)] →
      addLocusIdColumn (LocusRow.mk ("L1") (1 / 100) :: []) =
        addLocusIdColumn [LocusRow.mk ("L9") (1 / 2), LocusRow.mk ("L1") (3 / 100)]) ∧
    ((addLocusIdColumn (LocusRow.mk ("L1") (1 / 100) :: [])).map Prod.fst =
      LocusRow.mk ("L1") (1 / 100) :: []) ∧
    (∀ p ∈ addLocusIdColumn (LocusRow.mk ("L1") (1 / 100) :: []),
      ∀ q ∈ addLocusIdColumn [LocusRow.mk ("L9") (1 / 2), LocusRow.mk ("L1") (3 / 100)],
        p.1.key = q.1.key → p.2 = q.2) :=
  locusIdentifier_pure (LocusRow.mk ("L1") (1 / 100) :: [])
    [LocusRow.mk ("L9") (1 / 2), LocusRow.mk ("L1") (3 / 100)]

/-- The final save block returns exit code 0 when all three saves
complete and exit code 1 otherwise. -/
lemma finalSaves_result (env : RunEnv) (ws : List String) :
    (finalSaves env ws).1 = PyResult.int 0 ∨ (finalSaves env ws).1 = PyResult.int 1 := by
  unfold finalSaves
  split_ifs <;> simp

/-- C9: in a run where no operation fails, the three final output files
are written whether or not `--save` is supplied, while the phenotype,
variant and hypergeometric intermediate tables are written exactly when
`--save` is supplied. -/
theorem mainRun_save_behavior (args : Args) (env : RunEnv)
    (h : env.phenotypeOk = true ∧ env.variantOk = true ∧ env.finalizeOk = true ∧
      env.savePhenotypeOk = true ∧ env.saveVariantOk = true ∧ env.saveHypergeoOk = true ∧
      env.savePredectorOk = true ∧ env.saveIsoformOk = true ∧ env.saveLociOk = true) :
    (("8_pred_fisher_merged_dataset.txt") ∈ (mainRun args env).2 ∧
      ("complete_isoform_list.txt") ∈ (mainRun args env).2 ∧
      ("filtered_loci_list.txt") ∈ (mainRun args env).2) ∧
    ((("phenotype_tables") ∈ (mainRun args env).2 ∨
      ("0_filtered_combined_variants.txt") ∈ (mainRun args env).2 ∨
      ("hypergeo_tables") ∈ (mainRun args env).2) ↔ args.save = true) := by
  obtain ⟨h1, h2, h3, h4, h5, h6, h7, h8, h9⟩ := h
  cases hs : args.save <;>
    simp only [mainRun, finalSaves, h1, h2, h3, h4, h5, h6, h7, h8, h9, hs] <;> decide

/-- C9 witness: with the default arguments plus `--save` and every
operation succeeding, the three final files and the intermediate tables
are all written. -/
theorem mainRun_save_behavior_witness :
    (allOkEnv.phenotypeOk = true ∧ allOkEnv.variantOk = true ∧ allOkEnv.finalizeOk = true ∧
      allOkEnv.savePhenotypeOk = true ∧ allOkEnv.saveVariantOk = true ∧
      allOkEnv.saveHypergeoOk = true ∧ allOkEnv.savePredectorOk = true ∧
      allOkEnv.saveIsoformOk = true ∧ allOkEnv.saveLociOk = true) ∧
    ((("8_pred_fisher_merged_dataset.txt") ∈ (mainRun defaultArgsWithSave allOkEnv).2 ∧
      ("complete_isoform_list.txt") ∈ (mainRun defaultArgsWithSave allOkEnv).2 ∧
      ("filtered_loci_list.txt") ∈ (mainRun defaultArgsWithSave allOkEnv).2) ∧
    ((("phenotype_tables") ∈ (mainRun defaultArgsWithSave allOkEnv).2 ∨
      ("0_filtered_combined_variants.txt") ∈ (mainRun defaultArgsWithSave allOkEnv).2 ∨
      ("hypergeo_tables") ∈ (mainRun defaultArgsWithSave allOkEnv).2) ↔
        defaultArgsWithSave.save = true)) :=
  ⟨by decide, mainRun_save_behavior defaultArgsWithSave allOkEnv (by decide)⟩

/-- C10: `main` always returns the integer 0 or the integer 1 and never a
DataFrame, so the `__main__` branch printing the final in-memory output
never fires. -/
theorem mainRun_exit_code (args : Args) (env : RunEnv) :
    ((mainRun args env).1 = PyResult.int 0 ∨ (mainRun args env).1 = PyResult.int 1) ∧
      mainBlockPrintsDataFrame args env = false := by
  have h : (mainRun args env).1 = PyResult.int 0 ∨ (mainRun args env).1 = PyResult.int 1 := by
    unfold mainRun
    split_ifs <;> first | simp | exact finalSaves_result env _
  refine ⟨h, ?_⟩
  unfold mainBlockPrintsDataFrame
  rcases h with h | h <;> rw [h]

/-- C10 witness: with the default arguments and a fully successful run,
`main` returns an integer and the DataFrame branch does not fire. -/
theorem mainRun_exit_code_witness :
    ((mainRun defaultArgsWithSave allOkEnv).1 = PyResult.int 0 ∨
      (mainRun defaultArgsWithSave allOkEnv).1 = PyResult.int 1) ∧
      mainBlockPrintsDataFrame defaultArgsWithSave allOkEnv = false :=
  mainRun_exit_code defaultArgsWithSave allOkEnv

end EffectorFisher
